import Mathlib

/-!
Verification of the sno-py editor core: the window/split-tree algorithms
(src/sno_py/window.py, src/sno_py/editor.py), the LSP client manager
(src/sno_py/lsp/manager.py), the buffer/LSP session glue (src/sno_py/buffer.py),
the diagnostics store (src/sno_py/lsp/diagnostic.py) and the LSP client
lifecycle (src/sno_py/lsp/client.py), shallowly embedded in Lean.

Conventions of the embedding:
- EditorWindow and buffer objects are identified by natural-number ids; Python
  object identity on windows corresponds to id equality because the window
  manager only ever inserts freshly constructed windows into the tree.
- In-place mutation of the split tree is modelled by functional update at the
  position of the (unique) target window; the fused find-and-mutate functions
  below traverse children in exactly the order of WindowManager._find_parent
  (each child is first compared against the target, then descended into,
  before the next child is examined).
- Cooperative asyncio concurrency is modelled by explicit interleaving of
  small-step task programs; a step boundary is placed at every `await`.
-/

namespace SnoPy

/-- Layout tree node (src/sno_py/window.py).  `window wid buf` models an
`EditorWindow` identified by `wid` whose active buffer is `buf`;
`split` models a `SplitContainer` with its orientation flag and ordered
children list. -/
inductive WTree where
  | window (wid : Nat) (buf : Nat)
  | split (is_horizontal : Bool) (children : List WTree)
deriving Repr

mutual

def wtreeDecEq : (a b : WTree) → Decidable (a = b)
  | .window w1 b1, .window w2 b2 =>
    match decEq w1 w2, decEq b1 b2 with
    | isTrue hw, isTrue hb => isTrue (by rw [hw, hb])
    | isFalse hw, _ => isFalse (by simp only [WTree.window.injEq]; exact fun h => hw h.1)
    | _, isFalse hb => isFalse (by simp only [WTree.window.injEq]; exact fun h => hb h.2)
  | .window _ _, .split _ _ => isFalse (by intro h; cases h)
  | .split _ _, .window _ _ => isFalse (by intro h; cases h)
  | .split h1 cs1, .split h2 cs2 =>
    match decEq h1 h2, wtreeDecEqL cs1 cs2 with
    | isTrue hh, isTrue hc => isTrue (by rw [hh, hc])
    | isFalse hh, _ => isFalse (by simp only [WTree.split.injEq]; exact fun h => hh h.1)
    | _, isFalse hc => isFalse (by simp only [WTree.split.injEq]; exact fun h => hc h.2)

def wtreeDecEqL : (as bs : List WTree) → Decidable (as = bs)
  | [], [] => isTrue rfl
  | _ :: _, [] => isFalse (by intro h; cases h)
  | [], _ :: _ => isFalse (by intro h; cases h)
  | a :: as, b :: bs =>
    match wtreeDecEq a b, wtreeDecEqL as bs with
    | isTrue hab, isTrue habs => isTrue (by rw [hab, habs])
    | isFalse hab, _ => isFalse (by simp only [List.cons.injEq]; exact fun h => hab h.1)
    | _, isFalse habs => isFalse (by simp only [List.cons.injEq]; exact fun h => habs h.2)

end

instance : DecidableEq WTree := wtreeDecEq

/-- Python's `child == window` comparison between a tree node and an
EditorWindow: true exactly when the node is that window. -/
def isWindow (t : WTree) (w : Nat) : Bool :=
  match t with
  | .window wid _ => wid == w
  | .split _ _ => false

mutual

/-- Membership of a window in a subtree (used for side conditions that express
the uniqueness of window objects). -/
def winIn (w : Nat) : WTree → Bool
  | .window wid _ => wid == w
  | .split _ cs => winInL w cs

def winInL (w : Nat) : List WTree → Bool
  | [] => false
  | c :: cs => winIn w c || winInL w cs

end

mutual

/-- WindowManager._get_all_windows (window.py 333-352): pre-order list of all
windows below a node. -/
def get_all_windows : WTree → List Nat
  | .window wid _ => [wid]
  | .split _ cs => get_all_windowsL cs

def get_all_windowsL : List WTree → List Nat
  | [] => []
  | c :: cs => get_all_windows c ++ get_all_windowsL cs

end

mutual

/-- WindowManager._find_next_window (window.py 489-506): first window found by
pre-order traversal. -/
def find_next_window : WTree → Option Nat
  | .window wid _ => some wid
  | .split _ cs => find_next_windowL cs

def find_next_windowL : List WTree → Option Nat
  | [] => none
  | c :: cs =>
    match find_next_window c with
    | some w => some w
    | none => find_next_windowL cs

end

mutual

/-- Lookup of the active buffer of window `w` (models reading
`window.active_buffer` off the EditorWindow object found in the tree). -/
def active_buf_of (w : Nat) : WTree → Option Nat
  | .window wid b => if wid == w then some b else none
  | .split _ cs => active_buf_ofL w cs

def active_buf_ofL (w : Nat) : List WTree → Option Nat
  | [] => none
  | c :: cs =>
    match active_buf_of w c with
    | some b => some b
    | none => active_buf_ofL w cs

end

mutual

/-- Fusion of WindowManager._find_parent (window.py 441-462) with the mutation
performed by WindowManager.split (window.py 402-410) at the found parent:
children are scanned in order; at the first child equal to the target window,
if the parent's orientation equals the requested one the new window is
inserted immediately after the target, otherwise the target is replaced by a
2-child split of the requested orientation; otherwise the scan descends into
the child before moving on.  Returns `none` when no parent is found (the
`parent is None` case of the source). -/
def split_in_tree (target : Nat) (is_horizontal : Bool) (nw : WTree) : WTree → Option WTree
  | .window _ _ => none
  | .split h cs =>
    (split_in_treeL target is_horizontal nw h cs).map (fun cs2 => .split h cs2)

def split_in_treeL (target : Nat) (is_horizontal : Bool) (nw : WTree) (h : Bool) :
    List WTree → Option (List WTree)
  | [] => none
  | c :: cs =>
    if isWindow c target then
      if h == is_horizontal then some (c :: nw :: cs)
      else some (.split is_horizontal [c, nw] :: cs)
    else
      match split_in_tree target is_horizontal nw c with
      | some c2 => some (c2 :: cs)
      | none => (split_in_treeL target is_horizontal nw h cs).map (fun cs2 => c :: cs2)

end

mutual

/-- Fusion of WindowManager._find_parent with the mutation performed by
WindowManager.close_window (window.py 474-483): the target window is removed
from its parent's children; if the parent is left with exactly one child the
parent is replaced (in its own parent, or as the root) by that sole child.
The boolean in the list result records whether the removal happened among
these direct children (so that the one-level collapse check applies here) or
deeper. -/
def close_in_tree (target : Nat) : WTree → Option WTree
  | .window _ _ => none
  | .split h cs =>
    match close_in_treeL target cs with
    | some (true, cs2) =>
      match cs2 with
      | [c] => some c
      | _ => some (.split h cs2)
    | some (false, cs2) => some (.split h cs2)
    | none => none

def close_in_treeL (target : Nat) : List WTree → Option (Bool × List WTree)
  | [] => none
  | c :: cs =>
    if isWindow c target then some (true, cs)
    else
      match close_in_tree target c with
      | some c2 => some (false, c2 :: cs)
      | none => (close_in_treeL target cs).map (fun p => (p.1, c :: p.2))

end

/-- WindowManager state (window.py 224-251): the root of the split tree, the
active window, and a source of fresh window ids (Python object identity of
newly constructed EditorWindows). -/
structure WindowManager where
  root : Option WTree
  active_window : Option Nat
  next_wid : Nat
deriving Repr, DecidableEq

/-- WindowManager.split (window.py 373-416).  The Python method receives the
target EditorWindow object; here it is given as the pair of its id `target`
and its active buffer `target_buf`.  A fresh window `next_wid` is created
showing `new_buffer` (defaulting to the target's active buffer); the tree is
updated by the insertion rules of `split_in_tree`, wrapping the whole tree in
a new split when no parent is found, or creating a fresh 2-child root when the
tree is empty; the new window becomes active. -/
def WindowManager.split (wm : WindowManager) (target : Nat) (target_buf : Nat)
    (is_horizontal : Bool) (new_buffer : Option Nat) : WindowManager :=
  let nbuf := new_buffer.getD target_buf
  let nw : WTree := .window wm.next_wid nbuf
  let root2 : WTree :=
    match wm.root with
    | none => .split is_horizontal [.window target target_buf, nw]
    | some r =>
      match split_in_tree target is_horizontal nw r with
      | none => .split is_horizontal [r, nw]
      | some r2 => r2
  { root := some root2, active_window := some wm.next_wid, next_wid := wm.next_wid + 1 }

/-- WindowManager.split with its defaults (window.py 386-389): the target
defaults to the active window and the new buffer to the target's active
buffer. -/
def WindowManager.splitActive (wm : WindowManager) (is_horizontal : Bool) : WindowManager :=
  match wm.active_window with
  | none => wm
  | some w => wm.split w (((wm.root.map (active_buf_of w)).getD none).getD 0) is_horizontal none

/-- WindowManager.close_window (window.py 464-487).  If the root is the target
window itself the tree becomes empty with no active window; otherwise the
target is removed by `close_in_tree` (a no-op when the window has no parent in
the tree); finally, if the closed window was the active one, focus moves to
the first window in pre-order of the new root. -/
def WindowManager.close_window (wm : WindowManager) (target : Nat) : WindowManager :=
  match wm.root with
  | none => wm
  | some r =>
    if isWindow r target then { wm with root := none, active_window := none }
    else
      let r2 := (close_in_tree target r).getD r
      let active :=
        if wm.active_window == some target then find_next_window r2
        else wm.active_window
      { wm with root := some r2, active_window := active }

/-- One window-manager operation of the kind quantified over by the split-tree
claims.  The split operation carries the target window's id and active buffer
(the data of the EditorWindow argument of the source method). -/
inductive WMOp where
  | split (target : Nat) (target_buf : Nat) (is_horizontal : Bool) (new_buffer : Option Nat)
  | close (target : Nat)
deriving Repr, DecidableEq

def applyWMOp (wm : WindowManager) : WMOp → WindowManager
  | .split t tb h nb => wm.split t tb h nb
  | .close t => wm.close_window t

def applyWMOps (wm : WindowManager) (ops : List WMOp) : WindowManager :=
  ops.foldl applyWMOp wm

/-- Iterated default split: n successive calls of `split()` on the active
window with the same orientation. -/
def repeatSplitActive (wm : WindowManager) (is_horizontal : Bool) : Nat → WindowManager
  | 0 => wm
  | n + 1 => (repeatSplitActive wm is_horizontal n).splitActive is_horizontal

/-- Editor._init_layout (src/sno_py/editor.py 114-123), single-file startup:
the root becomes `SplitContainer([first_window], is_horizontal=True)` — a
container with exactly one child — and the first window is active. -/
def init_layout_single (wid buf : Nat) : WindowManager :=
  { root := some (.split true [.window wid buf])
    active_window := some wid
    next_wid := wid + 1 }

mutual

/-- Collapse-law predicate: no SplitContainer in the tree has exactly one
child. -/
def noSingleChild : WTree → Bool
  | .window _ _ => true
  | .split _ cs => (cs.length != 1) && noSingleChildL cs

def noSingleChildL : List WTree → Bool
  | [] => true
  | c :: cs => noSingleChild c && noSingleChildL cs

end

/-- Collapse-law predicate lifted to the manager state. -/
def wmNoSingleChild (wm : WindowManager) : Bool :=
  match wm.root with
  | none => true
  | some r => noSingleChild r

/-- Pre-order window ids of the whole layout (empty when the tree is empty). -/
def wmWindows (wm : WindowManager) : List Nat :=
  match wm.root with
  | none => []
  | some r => get_all_windows r

/-- A row of sibling windows with ids `ids`, all showing buffer `b` (the shape
produced by repeated same-orientation splits). -/
def windowsRow (ids : List Nat) (b : Nat) : List WTree :=
  ids.map (fun i => WTree.window i b)

/-! LanguageClientManager (src/sno_py/lsp/manager.py).  File extensions,
commands and client objects are coded as naturals. -/

/-- ServerConfig (manager.py 10-15). -/
structure ServerConfig where
  language_id : Nat
  extensions : List Nat
  command : Nat
deriving Repr, DecidableEq

/-- RunningServer (manager.py 17-20): a started client keyed by the extension
list of its configuration. -/
structure RunningServer where
  extensions : List Nat
  client : Nat
deriving Repr, DecidableEq

/-- LanguageClientManager.get_server_config (manager.py 50-55): first
configuration whose extension list contains the file's extension. -/
def get_server_config (servers : List ServerConfig) (ext : Nat) : Option ServerConfig :=
  servers.find? (fun c => c.extensions.contains ext)

/-- The scan of `self._running` inside get_client (manager.py 34-36): first
running server whose extension list equals the configuration's. -/
def find_running (running : List RunningServer) (exts : List Nat) : Option Nat :=
  (running.find? (fun s => s.extensions == exts)).map (fun s => s.client)

/-- Mutable state of a LanguageClientManager together with an instrumentation
of subprocess spawns: `next_client` is the identity of the next LspClient
object to be constructed and `spawn_count` counts completed
`client.start(...)` calls (each spawns one language-server subprocess). -/
structure MgrState where
  running : List RunningServer
  next_client : Nat
  spawn_count : Nat
deriving Repr, DecidableEq

/-- Program counter of one `get_client(file_path, root_path)` coroutine
(manager.py 30-40).  `awaiting_start` is the suspension at
`await client.start(...)`: the freshly constructed client and the resolved
configuration's extensions are held in locals across the await. -/
inductive GetClientPC where
  | ready
  | awaiting_start (client : Nat) (exts : List Nat)
  | finished (result : Option Nat)
deriving Repr, DecidableEq

/-- One scheduler step of a `get_client` coroutine.  From `ready` the coroutine
resolves the configuration (returning `none` when there is none), returns a
cached running client when the scan finds one, and otherwise constructs a new
LspClient and suspends in `await client.start(...)`.  Resuming from the await
records the spawned subprocess, appends the running entry and returns the new
client. -/
def get_client_step (servers : List ServerConfig) (ext : Nat) :
    GetClientPC → MgrState → GetClientPC × MgrState
  | .ready, st =>
    match get_server_config servers ext with
    | none => (.finished none, st)
    | some config =>
      match find_running st.running config.extensions with
      | some c => (.finished (some c), st)
      | none =>
        (.awaiting_start st.next_client config.extensions,
          { st with next_client := st.next_client + 1 })
  | .awaiting_start c exts, st =>
    (.finished (some c),
      { st with running := st.running ++ [⟨exts, c⟩], spawn_count := st.spawn_count + 1 })
  | .finished r, st => (.finished r, st)

/-- Two concurrent `get_client` calls sharing one manager. -/
structure TwoCalls where
  pc1 : GetClientPC
  pc2 : GetClientPC
  mgr : MgrState
deriving Repr, DecidableEq

/-- Scheduler step: run one step of the first (`true`) or second (`false`)
call.  The event loop interleaves the two coroutines at their awaits. -/
def sched_step (servers : List ServerConfig) (ext : Nat) (s : TwoCalls) (which : Bool) :
    TwoCalls :=
  if which then
    let (pc, mgr) := get_client_step servers ext s.pc1 s.mgr
    { s with pc1 := pc, mgr := mgr }
  else
    let (pc, mgr) := get_client_step servers ext s.pc2 s.mgr
    { s with pc2 := pc, mgr := mgr }

def run_schedule (servers : List ServerConfig) (ext : Nat) (sched : List Bool)
    (s : TwoCalls) : TwoCalls :=
  sched.foldl (sched_step servers ext) s

/-! FileBuffer text-change versioning (src/sno_py/buffer.py) and the version
carried by LspClient.open_document (src/sno_py/lsp/client.py 259-271). -/

/-- The version field of the TextDocumentItem sent by LspClient.open_document:
the literal 1 (client.py 266). -/
def open_document_version : Nat := 1

/-- Version-relevant state of one FileBuffer: whether an LSP client is bound
(`_lsp_client is not None`), the state of the `itertools.count()` counter
`_version` (the value its next call will yield), and the versions already
placed on outbound notifications. -/
structure BufferVersions where
  lsp_bound : Bool
  version_counter : Nat
  sent_change_versions : List Nat
  sent_open_version : Option Nat
deriving Repr, DecidableEq

/-- FileBuffer.__init__ (buffer.py 19-46): no client bound,
`_version = count()` starts at 0, nothing sent. -/
def initBufferVersions : BufferVersions :=
  { lsp_bound := false
    version_counter := 0
    sent_change_versions := []
    sent_open_version := none }

/-- The LSP-binding effect of FileBuffer.focus (buffer.py 93-107): when a
client is acquired and none was bound, bind it and send didOpen with
version `open_document_version`. -/
def bufferBindLsp (b : BufferVersions) : BufferVersions :=
  if b.lsp_bound then b
  else { b with lsp_bound := true, sent_open_version := some open_document_version }

/-- FileBuffer._on_text_changed (buffer.py 182-189): when a client is bound,
send didChange carrying `next(self._version)` — the counter's current value,
which is then incremented; otherwise the counter is not consumed. -/
def on_text_changed (b : BufferVersions) : BufferVersions :=
  if b.lsp_bound then
    { b with
      version_counter := b.version_counter + 1
      sent_change_versions := b.sent_change_versions ++ [b.version_counter] }
  else b

/-- Buffer events relevant to versioning: acquiring the LSP session, and a
text change. -/
inductive BufOp where
  | bindLsp
  | edit
deriving Repr, DecidableEq

def applyBufOp (b : BufferVersions) : BufOp → BufferVersions
  | .bindLsp => bufferBindLsp b
  | .edit => on_text_changed b

def applyBufOps (b : BufferVersions) (ops : List BufOp) : BufferVersions :=
  ops.foldl applyBufOp b

/-! Diagnostics store (src/sno_py/lsp/diagnostic.py) and its use by
FileBuffer.listen_for_reports (src/sno_py/buffer.py 191-199). -/

/-- DiagnosticSeverity.ERROR of the LSP enumeration. -/
def severityError : Nat := 1

/-- One diagnostic of a publishDiagnostics notification: its severity and an
opaque payload standing for range and message. -/
structure LspDiagnostic where
  severity : Nat
  payload : Nat
deriving Repr, DecidableEq

/-- The Diagnostic class of sno_py/lsp/diagnostic.py: a list plus a ready
flag. -/
structure DiagnosticStore where
  diagnostics : List LspDiagnostic
  ready : Bool
deriving Repr, DecidableEq

/-- Diagnostic.__init__ (diagnostic.py 5-7). -/
def initDiagnosticStore : DiagnosticStore :=
  { diagnostics := [], ready := false }

/-- Diagnostic.__enter__ (diagnostic.py 18-20): clears the list and lowers the
ready flag. -/
def DiagnosticStore.enter (_d : DiagnosticStore) : DiagnosticStore :=
  { diagnostics := [], ready := false }

/-- Diagnostic.__exit__ (diagnostic.py 22-23): raises the ready flag. -/
def DiagnosticStore.exitStore (d : DiagnosticStore) : DiagnosticStore :=
  { d with ready := true }

/-- Diagnostic.append (diagnostic.py 9-10). -/
def DiagnosticStore.appendDiag (d : DiagnosticStore) (x : LspDiagnostic) : DiagnosticStore :=
  { d with diagnostics := d.diagnostics ++ [x] }

/-- Diagnostic.get_diagnostics (diagnostic.py 12-16): the empty list while not
ready, otherwise the stored list. -/
def DiagnosticStore.get_diagnostics (d : DiagnosticStore) : List LspDiagnostic :=
  if !d.ready then [] else d.diagnostics

/-- The body of the `with self._reports` block of FileBuffer.listen_for_reports
(buffer.py 193-196): append every diagnostic of the event whose severity is
ERROR. -/
def ingestDiagnostics (d : DiagnosticStore) (ev : List LspDiagnostic) : DiagnosticStore :=
  ev.foldl
    (fun s x => if x.severity == severityError then s.appendDiag x else s) d

/-- FileBuffer.listen_for_reports (buffer.py 191-196): when a client is bound,
enter the store (clear), ingest the event's ERROR diagnostics, and exit the
store (mark ready). -/
def listen_for_reports (lsp_bound : Bool) (d : DiagnosticStore) (ev : List LspDiagnostic) :
    DiagnosticStore :=
  if lsp_bound then DiagnosticStore.exitStore (ingestDiagnostics (DiagnosticStore.enter d) ev)
  else d

/-- FileBuffer.reports (buffer.py 198-199). -/
def buffer_reports (d : DiagnosticStore) : List LspDiagnostic :=
  d.get_diagnostics

/-! Waiting for server messages (src/sno_py/lsp/client.py 176-202, 316-337):
LspClient._wait_for_message_of_type, LspClient._wrap_coro and the pending wait
of request_completion. -/

/-- Inbound non-notification server messages. -/
inductive LspMessage where
  | completion (payload : Nat)
  | signatureHelp (payload : Nat)
  | shutdownResult
  | other (payload : Nat)
deriving Repr, DecidableEq

def isCompletionMsg : LspMessage → Bool
  | .completion _ => true
  | _ => false

/-- Outcome of an awaited wait: a message, an asyncio.TimeoutError raised by
`asyncio.wait_for`, or a LanguageServerCrashed raised by the process-death
race of `_wrap_coro`. -/
inductive WaitOutcome where
  | got (m : LspMessage)
  | timedOut
  | crashed
deriving Repr, DecidableEq

/-- The `while True` loop of _wait_for_message_of_type (client.py 182-187):
each iteration awaits `self._new_messages.get()` under `asyncio.wait_for`
with the given per-get timeout.  `incoming` lists the future queue arrivals
as (absolute time, message); `now` is when the current get began.  A gap
larger than the timeout — in particular a queue that never receives another
message, as after the server process has died — raises TimeoutError.
Non-matching messages are set aside into `self._messages` and the loop
continues. -/
def waitLoop (isType : LspMessage → Bool) (timeout : Nat) :
    List (Nat × LspMessage) → Nat → WaitOutcome
  | [], _ => .timedOut
  | (t, m) :: rest, now =>
    if now + timeout < t then .timedOut
    else if isType m then .got m
    else waitLoop isType timeout rest t

/-- LspClient._wait_for_message_of_type (client.py 176-187): scan the buffered
`self._messages` first, then run the get loop.  The process-death event
`self._process_gone` is not consulted anywhere in this function. -/
def wait_for_message_of_type (isType : LspMessage → Bool) (buffered : List LspMessage)
    (incoming : List (Nat × LspMessage)) (timeout now : Nat) : WaitOutcome :=
  match buffered.find? isType with
  | some m => .got m
  | none => waitLoop isType timeout incoming now

/-- The pending wait of LspClient.request_completion (client.py 331-337): after
sending the completion request it awaits
`_wait_for_message_of_type(lsp.Completion)` with the default timeout of 5.
`deathTime`, the instant the server subprocess dies, does not influence the
outcome because the wait is not raced against `_process_gone`. -/
def request_completion_wait (buffered : List LspMessage) (incoming : List (Nat × LspMessage))
    (deathTime : Option Nat) (now : Nat) : WaitOutcome :=
  wait_for_message_of_type isCompletionMsg buffered incoming 5 now

/-- LspClient._wrap_coro (client.py 189-202): race a coroutine (completing at a
time with a message, if ever) against the `_process_gone` event (set at
`deathTime`, if ever); when the process-death task is among the completed
tasks, LanguageServerCrashed is raised. -/
inductive RaceOutcome where
  | finished (m : LspMessage)
  | crashed
  | stillWaiting
deriving Repr, DecidableEq

def wrap_coro (coro : Option (Nat × LspMessage)) (deathTime : Option Nat) : RaceOutcome :=
  match coro, deathTime with
  | none, none => .stillWaiting
  | none, some _ => .crashed
  | some (_, m), none => .finished m
  | some (tc, m), some td => if td ≤ tc then .crashed else .finished m

/-! LspClient.exit (src/sno_py/lsp/client.py 356-388). -/

/-- The uncaught exception class raised by the second call of exit. -/
inductive PyError where
  | attributeError
deriving Repr, DecidableEq

/-- Lifecycle state of one LspClient relevant to exit: whether `_process` and
`_concurrent_tasks` are still set, whether `_process_gone` is set, and an
instrumentation counting `terminate()` calls on the subprocess. -/
structure LspClientProc where
  hasProcess : Bool
  processGone : Bool
  hasTasks : Bool
  terminateCount : Nat
deriving Repr, DecidableEq

/-- State of a client after a successful start (client.py 142-162): subprocess
and pump tasks running. -/
def startedClient : LspClientProc :=
  { hasProcess := true, processGone := false, hasTasks := true, terminateCount := 0 }

/-- LspClient.exit (client.py 356-388).  When `_process` is set: attempt the
shutdown handshake (all its exceptions are swallowed), then in the finally
block terminate the subprocess, await its reaping and clear `_process`.
Afterwards `self._concurrent_tasks.cancel()` is called inside a
`try ... except asyncio.CancelledError`: when `_concurrent_tasks` is `None`
(as it is after a previous exit) this raises AttributeError, which that
handler does not catch, so the call fails and the trailing
`self._concurrent_tasks = None` is not reached.  The result pairs the raised
exception (if any) with the state left behind. -/
def LspClientProc.exitCall (c : LspClientProc) : Option PyError × LspClientProc :=
  let c1 :=
    if c.hasProcess then
      { c with hasProcess := false, terminateCount := c.terminateCount + 1 }
    else c
  if c1.hasTasks then (none, { c1 with hasTasks := false })
  else (some .attributeError, c1)

/-! Notification handlers (src/sno_py/lsp/client.py 243-252) and the
registration behaviour of FileBuffer.load and FileBuffer.focus
(src/sno_py/buffer.py 93-107 and 128-155). -/

/-- NotificationHandler (client.py 17-19): the notification type and the
callback, both coded as naturals (`of_type` is `PublishDiagnostics` and `func`
the buffer's bound `listen_for_reports` method in the claims). -/
structure NotificationHandler where
  of_type : Nat
  func : Nat
deriving Repr, DecidableEq

/-- LspClient.add_notification_handler (client.py 243-246): append. -/
def add_notification_handler (l : List NotificationHandler) (t f : Nat) :
    List NotificationHandler :=
  l ++ [⟨t, f⟩]

/-- LspClient.remove_notification_handler (client.py 248-252): remove the first
handler whose type and callback both match, then stop. -/
def remove_notification_handler (l : List NotificationHandler) (t f : Nat) :
    List NotificationHandler :=
  match l with
  | [] => []
  | h :: rest =>
    if h.of_type == t && h.func == f then rest
    else h :: remove_notification_handler rest t f

/-- Membership of a handler in the registered list. -/
def containsHandler (l : List NotificationHandler) (t f : Nat) : Bool :=
  l.any (fun h => h.of_type == t && h.func == f)

/-- The handler-list effect of FileBuffer.load (buffer.py 150-155) when an LSP
client was acquired: add_notification_handler immediately followed by
remove_notification_handler with the same type and callback. -/
def load_handler_effect (l : List NotificationHandler) (t f : Nat) :
    List NotificationHandler :=
  remove_notification_handler (add_notification_handler l t f) t f

/-- The handler-list effect of FileBuffer.focus (buffer.py 105-107) when an LSP
client was acquired and none was bound: add_notification_handler only. -/
def focus_handler_effect (l : List NotificationHandler) (t f : Nat) :
    List NotificationHandler :=
  add_notification_handler l t f

/-! Concrete scenario states used by the scenario claims. -/

/-- Scenario of the close claim: single-file startup with window 1 showing
buffer 10, then split(W1, horizontal=true). -/
def c7_s1 : WindowManager := (init_layout_single 1 10).split 1 10 true none

/-- Second step: split(W2, horizontal=true). -/
def c7_s2 : WindowManager := c7_s1.split 2 10 true none

/-- Third step: close_window(W2). -/
def c7_s3 : WindowManager := c7_s2.close_window 2

/-- One registered server configuration: language 0, extension 7, command 5. -/
def c3_servers : List ServerConfig := [⟨0, [7], 5⟩]

/-- Two pending get_client calls for extension 7 on a fresh manager. -/
def c3_start : TwoCalls := ⟨.ready, .ready, ⟨[], 0, 0⟩⟩

/-- Concurrent interleaving: both calls perform their cache check before either
finishes `await client.start(...)`. -/
def c3_concurrent : TwoCalls := run_schedule c3_servers 7 [true, false, true, false] c3_start

/-- Sequential composition: the first call runs to completion, then the
second. -/
def c3_sequential : TwoCalls := run_schedule c3_servers 7 [true, true, false] c3_start

/-! Helper lemmas. -/

theorem applyBufOps_cons (b : BufferVersions) (op : BufOp) (ops : List BufOp) :
    applyBufOps b (op :: ops) = applyBufOps (applyBufOp b op) ops := rfl

theorem applyBufOps_range (ops : List BufOp) :
    ∀ b : BufferVersions, b.sent_change_versions = List.range b.version_counter →
      (applyBufOps b ops).sent_change_versions = List.range (applyBufOps b ops).version_counter := by
  induction ops with
  | nil => intro b hb; simpa [applyBufOps] using hb
  | cons op ops ih =>
    intro b hb
    rw [applyBufOps_cons]
    refine ih _ ?_
    cases op with
    | bindLsp =>
      simp only [applyBufOp, bufferBindLsp]
      split <;> simpa using hb
    | edit =>
      simp only [applyBufOp, on_text_changed]
      split
      · simpa [List.range_succ] using congrArg (fun l => l ++ [b.version_counter]) hb
      · exact hb

theorem ingestDiagnostics_nil (d : DiagnosticStore) : ingestDiagnostics d [] = d := rfl

theorem ingestDiagnostics_cons (d : DiagnosticStore) (x : LspDiagnostic)
    (ev : List LspDiagnostic) :
    ingestDiagnostics d (x :: ev)
      = ingestDiagnostics (if x.severity == severityError then d.appendDiag x else d) ev := rfl

theorem ingestDiagnostics_ready (ev : List LspDiagnostic) :
    ∀ d : DiagnosticStore, (ingestDiagnostics d ev).ready = d.ready := by
  induction ev with
  | nil => intro d; rfl
  | cons x ev ih =>
    intro d
    rw [ingestDiagnostics_cons, ih]
    split <;> rfl

theorem ingestDiagnostics_diagnostics (ev : List LspDiagnostic) :
    ∀ d : DiagnosticStore,
      (ingestDiagnostics d ev).diagnostics
        = d.diagnostics ++ ev.filter (fun x => x.severity == severityError) := by
  induction ev with
  | nil => intro d; simp [ingestDiagnostics]
  | cons x ev ih =>
    intro d
    rw [ingestDiagnostics_cons, ih, List.filter_cons]
    by_cases hx : (x.severity == severityError) = true
    · simp [hx, DiagnosticStore.appendDiag]
    · simp [hx]

theorem listen_reports_eq (x : DiagnosticStore) (ev : List LspDiagnostic) :
    buffer_reports (listen_for_reports true x ev)
      = ev.filter (fun y => y.severity == severityError) := by
  simp [listen_for_reports, buffer_reports, DiagnosticStore.get_diagnostics,
    DiagnosticStore.exitStore, ingestDiagnostics_diagnostics, DiagnosticStore.enter]

theorem waitLoop_ne_crashed (isType : LspMessage → Bool) (timeout : Nat) :
    ∀ (incoming : List (Nat × LspMessage)) (now : Nat),
      waitLoop isType timeout incoming now ≠ WaitOutcome.crashed
  | [], _ => by simp [waitLoop]
  | (t, m) :: rest, now => by
    simp only [waitLoop]
    split
    · simp
    · split
      · simp
      · exact waitLoop_ne_crashed isType timeout rest t

theorem wait_for_message_ne_crashed (isType : LspMessage → Bool)
    (buffered : List LspMessage) (incoming : List (Nat × LspMessage)) (timeout now : Nat) :
    wait_for_message_of_type isType buffered incoming timeout now ≠ WaitOutcome.crashed := by
  unfold wait_for_message_of_type
  cases hf : buffered.find? isType with
  | some m => simp
  | none => exact waitLoop_ne_crashed isType timeout incoming now

theorem remove_after_add (t f : Nat) :
    ∀ l : List NotificationHandler, containsHandler l t f = false →
      remove_notification_handler (add_notification_handler l t f) t f = l
  | [], _ => by
    simp [add_notification_handler, remove_notification_handler]
  | h :: rest, hc => by
    have hpair : (h.of_type == t && h.func == f) = false ∧ containsHandler rest t f = false := by
      simpa [containsHandler, List.any_cons, Bool.or_eq_false_iff] using hc
    have hrec := remove_after_add t f rest hpair.2
    simp only [add_notification_handler, List.cons_append, remove_notification_handler, hpair.1,
      Bool.false_eq_true, if_false]
    exact congrArg (fun l => h :: l) hrec

theorem find_running_append_self (l : List RunningServer) (e : List Nat) (c : Nat)
    (h : find_running l e = none) : find_running (l ++ [⟨e, c⟩]) e = some c := by
  unfold find_running at h ⊢
  rw [List.find?_append]
  cases hf : l.find? (fun s => s.extensions == e) with
  | some s => rw [hf] at h; simp at h
  | none => simp [List.find?]

/-! Claim theorems. -/

/-- C4 counterexample: the claim requires every didChange version to be
strictly greater than the version sent at open time; but open_document sends
version 1 and the first text change after binding sends version 0 (the
itertools counter starts at 0), which is not greater than 1. -/
theorem C4_counterexample :
    (applyBufOps initBufferVersions [BufOp.bindLsp, BufOp.edit]).sent_open_version
        = some open_document_version ∧
    (applyBufOps initBufferVersions [BufOp.bindLsp, BufOp.edit]).sent_change_versions = [0] ∧
    ¬ open_document_version < 0 := by decide

/-- C4 (amended): for every buffer, the versions carried by successive
didChange notifications are strictly increasing (they are 0, 1, 2, … from the
itertools.count counter), for any sequence of LSP-binding and edit events;
the comparison against the didOpen version (the constant 1) does not hold. -/
theorem C4_version_monotonic_amended (ops : List BufOp) :
    List.Pairwise (· < ·) ((applyBufOps initBufferVersions ops).sent_change_versions) := by
  have h := applyBufOps_range ops initBufferVersions (by simp [initBufferVersions])
  rw [h]
  exact List.pairwise_lt_range _

/-- C5: after two successive publishDiagnostics notifications for the same
document are ingested, the buffer's reports accessor exposes exactly the
ERROR-severity diagnostics of the second notification — the first is fully
replaced, never appended or merged — and while an ingestion is in progress
(any prefix of the event processed, before the with-block exits) the accessor
exposes the empty list, never a mixture of old and new diagnostics. -/
theorem C5_diagnostics_replace (d : DiagnosticStore) (ev1 ev2 : List LspDiagnostic) :
    buffer_reports (listen_for_reports true (listen_for_reports true d ev1) ev2)
        = ev2.filter (fun x => x.severity == severityError) ∧
    buffer_reports (listen_for_reports true (listen_for_reports true d ev1) ev2)
        = buffer_reports (listen_for_reports true initDiagnosticStore ev2) ∧
    ∀ pre : List LspDiagnostic,
      buffer_reports
        (ingestDiagnostics (DiagnosticStore.enter (listen_for_reports true d ev1)) pre) = [] := by
  refine ⟨listen_reports_eq _ _, ?_, ?_⟩
  · rw [listen_reports_eq, listen_reports_eq]
  · intro pre
    have hready :
        (ingestDiagnostics (DiagnosticStore.enter (listen_for_reports true d ev1)) pre).ready
          = false := by
      rw [ingestDiagnostics_ready]; rfl
    simp [buffer_reports, DiagnosticStore.get_diagnostics, hready]

/-- C6 counterexample: the server process dies at time 0 while a completion
request is pending and no further message ever arrives; the pending call ends
with the TimeoutError of asyncio.wait_for, not with LanguageServerCrashed as
the claim states. -/
theorem C6_counterexample :
    request_completion_wait [] [] (some 0) 0 = WaitOutcome.timedOut ∧
    WaitOutcome.timedOut ≠ WaitOutcome.crashed := by decide

/-- C6 (amended): a pending completion request against a dead server does not
hang — it fails within the per-get timeout (default 5) — but it fails with a
timeout error and can never fail with LanguageServerCrashed, because
_wait_for_message_of_type does not consult the process-death event; only the
notification-queue wait is raced against process death via _wrap_coro, which
raises LanguageServerCrashed whenever the death signal wins the race. -/
theorem C6_crash_handling_amended :
    (∀ (isType : LspMessage → Bool) (buffered : List LspMessage)
        (incoming : List (Nat × LspMessage)) (timeout now : Nat),
      wait_for_message_of_type isType buffered incoming timeout now ≠ WaitOutcome.crashed) ∧
    (∀ (deathTime : Option Nat) (now : Nat),
      request_completion_wait [] [] deathTime now = WaitOutcome.timedOut) ∧
    (∀ (m : LspMessage) (tc td : Nat), td ≤ tc →
      wrap_coro (some (tc, m)) (some td) = RaceOutcome.crashed) ∧
    (∀ td : Nat, wrap_coro none (some td) = RaceOutcome.crashed) := by
  refine ⟨wait_for_message_ne_crashed, fun deathTime now => rfl, ?_, fun td => rfl⟩
  intro m tc td h
  simp [wrap_coro, h]

theorem C6_crash_handling_amended_witness :
    wait_for_message_of_type isCompletionMsg [] [] 5 0 ≠ WaitOutcome.crashed ∧
    request_completion_wait [] [] (some 0) 0 = WaitOutcome.timedOut ∧
    wrap_coro (some (3, LspMessage.shutdownResult)) (some 2) = RaceOutcome.crashed ∧
    wrap_coro none (some 7) = RaceOutcome.crashed :=
  ⟨C6_crash_handling_amended.1 isCompletionMsg [] [] 5 0,
   C6_crash_handling_amended.2.1 (some 0) 0,
   C6_crash_handling_amended.2.2.1 LspMessage.shutdownResult 3 2 (by decide),
   C6_crash_handling_amended.2.2.2 7⟩

/-- C9 counterexample: calling exit() a second time on a client whose first
exit() already reaped the subprocess does not complete normally — it raises
AttributeError, because `_concurrent_tasks` is None and `None.cancel()` is
outside the reach of the `except asyncio.CancelledError` handler. -/
theorem C9_counterexample :
    (LspClientProc.exitCall (LspClientProc.exitCall startedClient).2).1
        = some PyError.attributeError ∧
    some PyError.attributeError ≠ (none : Option PyError) := by decide

/-- C9 (amended): the first exit() on a started client completes without an
exception, terminates the subprocess exactly once and reaches the terminal
reaped state; a second exit() does not hang and does not terminate the
subprocess again (no double-free), but it raises AttributeError instead of
completing normally. -/
theorem C9_exit_amended :
    (LspClientProc.exitCall startedClient).1 = none ∧
    (LspClientProc.exitCall startedClient).2
        = { hasProcess := false, processGone := false, hasTasks := false, terminateCount := 1 } ∧
    (LspClientProc.exitCall (LspClientProc.exitCall startedClient).2).1
        = some PyError.attributeError ∧
    (LspClientProc.exitCall (LspClientProc.exitCall startedClient).2).2.terminateCount = 1 ∧
    (LspClientProc.exitCall (LspClientProc.exitCall startedClient).2).2.hasProcess = false := by
  decide

/-- C10: FileBuffer.load registers the buffer's PublishDiagnostics handler and
immediately removes that same handler, so when the handler was not already
registered (a buffer opened via load alone), the client's handler list is left
exactly as before and does not contain the handler; FileBuffer.focus, by
contrast, leaves the handler registered. -/
theorem C10_load_handler_removed (l : List NotificationHandler) (t f : Nat)
    (hl : containsHandler l t f = false) :
    load_handler_effect l t f = l ∧
    containsHandler (load_handler_effect l t f) t f = false ∧
    containsHandler (focus_handler_effect l t f) t f = true := by
  have h1 : load_handler_effect l t f = l := remove_after_add t f l hl
  refine ⟨h1, by rw [h1]; exact hl, ?_⟩
  simp [containsHandler, focus_handler_effect, add_notification_handler, List.any_append]

theorem C10_load_handler_removed_witness :
    containsHandler [] 0 1 = false ∧
    (load_handler_effect [] 0 1 = [] ∧
     containsHandler (load_handler_effect [] 0 1) 0 1 = false ∧
     containsHandler (focus_handler_effect [] 0 1) 0 1 = true) :=
  ⟨by decide, C10_load_handler_removed [] 0 1 (by decide)⟩

/-- C3 counterexample: two concurrent get_client calls for the same extension,
each performing its cache check before either completes
`await client.start(...)`, spawn two subprocesses, receive two distinct
LspClient instances, and leave two running entries for the same
configuration. -/
theorem C3_counterexample :
    c3_concurrent.mgr.spawn_count = 2 ∧ (2 : Nat) ≠ 1 ∧
    c3_concurrent.pc1 = GetClientPC.finished (some 0) ∧
    c3_concurrent.pc2 = GetClientPC.finished (some 1) ∧
    (some 0 : Option Nat) ≠ some 1 ∧
    c3_concurrent.mgr.running = [⟨[7], 0⟩, ⟨[7], 1⟩] := by decide

/-- C3 (amended): a get_client call that completes before the second begins
results in exactly one subprocess spawn, with both callers receiving the same
client instance (sequential reuse via the running-server cache); but the
start-or-reuse decision is not atomic across the await of client.start, so
two calls interleaved at that suspension point spawn two subprocesses and
obtain different clients — the single-flight property does not hold. -/
theorem C3_single_flight_amended :
    (∀ (servers : List ServerConfig) (ext : Nat) (st : MgrState) (config : ServerConfig),
        get_server_config servers ext = some config →
        find_running st.running config.extensions = none →
        (run_schedule servers ext [true, true, false]
            ⟨GetClientPC.ready, GetClientPC.ready, st⟩).mgr.spawn_count = st.spawn_count + 1 ∧
        (run_schedule servers ext [true, true, false]
            ⟨GetClientPC.ready, GetClientPC.ready, st⟩).pc1
            = GetClientPC.finished (some st.next_client) ∧
        (run_schedule servers ext [true, true, false]
            ⟨GetClientPC.ready, GetClientPC.ready, st⟩).pc2
            = GetClientPC.finished (some st.next_client)) ∧
    (c3_concurrent.mgr.spawn_count = 2 ∧
      c3_concurrent.pc1 = GetClientPC.finished (some 0) ∧
      c3_concurrent.pc2 = GetClientPC.finished (some 1)) := by
  constructor
  · intro servers ext st config h1 h2
    have h3 := find_running_append_self st.running config.extensions st.next_client h2
    simp [run_schedule, sched_step, get_client_step, h1, h2, h3]
  · exact ⟨by decide, by decide, by decide⟩

theorem C3_single_flight_amended_witness :
    get_server_config c3_servers 7 = some ⟨0, [7], 5⟩ ∧
    find_running (MgrState.mk [] 0 0).running [7] = none ∧
    ((run_schedule c3_servers 7 [true, true, false]
        ⟨GetClientPC.ready, GetClientPC.ready, MgrState.mk [] 0 0⟩).mgr.spawn_count = 0 + 1 ∧
     (run_schedule c3_servers 7 [true, true, false]
        ⟨GetClientPC.ready, GetClientPC.ready, MgrState.mk [] 0 0⟩).pc1
        = GetClientPC.finished (some 0) ∧
     (run_schedule c3_servers 7 [true, true, false]
        ⟨GetClientPC.ready, GetClientPC.ready, MgrState.mk [] 0 0⟩).pc2
        = GetClientPC.finished (some 0)) :=
  ⟨by decide, by decide,
   C3_single_flight_amended.1 c3_servers 7 (MgrState.mk [] 0 0) ⟨0, [7], 5⟩
     (by decide) (by decide)⟩

/-- C7 counterexample: in the scenario W1, split(W1,h), split(W2,h),
close_window(W2), the tree does become Split(h)[W1, W3], but the closed window
W2 was not the active window (W3 was), so the active window stays W3 — it does
not become W1 as the claim states. -/
theorem C7_counterexample :
    c7_s3.root = some (.split true [.window 1 10, .window 3 10]) ∧
    c7_s3.active_window = some 3 ∧ (some 3 : Option Nat) ≠ some 1 := by decide

/-- C7 (amended): starting from the single-window startup layout with W1
showing buffer 10, split(W1, horizontal=true) yields Split(h)[W1, W2] with W2
active; split(W2, horizontal=true) yields the flattened Split(h)[W1, W2, W3]
with W3 active; close_window(W2) yields Split(h)[W1, W3] with the active
window remaining W3, since focus moves (to the pre-order-first window) only
when the closed window was the active one. -/
theorem C7_scenario_amended :
    c7_s1.root = some (.split true [.window 1 10, .window 2 10]) ∧
    c7_s1.active_window = some 2 ∧
    c7_s2.root = some (.split true [.window 1 10, .window 2 10, .window 3 10]) ∧
    c7_s2.active_window = some 3 ∧
    c7_s3.root = some (.split true [.window 1 10, .window 3 10]) ∧
    c7_s3.active_window = some 3 := by decide

/-- C8 counterexample: split(W1, horizontal=false) on the startup root
Split(h)[W1] does not make the root the vertical split Split(v)[W1, W2]; the
vertical split is created one level below, leaving the horizontal root in
place with it as sole child. -/
theorem C8_counterexample :
    ((init_layout_single 1 0).split 1 0 false none).root
        = some (.split true [.split false [.window 1 0, .window 2 0]]) ∧
    ((init_layout_single 1 0).split 1 0 false none).root
        ≠ some (.split false [.window 1 0, .window 2 0]) := by decide

/-- C8 (amended): split(W1, horizontal=false) on the single-window startup
layout (a horizontal root whose only child is W1) replaces W1 inside the
horizontal root by the new vertical split: the root becomes
Split(h)[Split(v)[W1, W2]], and the new window W2 becomes active. -/
theorem C8_orientation_split_amended :
    (init_layout_single 1 0).split 1 0 false none
      = { root := some (.split true [.split false [.window 1 0, .window 2 0]])
          active_window := some 2
          next_wid := 3 } := by decide

/-- C1 counterexample: the single-file startup layout itself has a root
container with exactly one child, and after the operation split(W1,
horizontal=false) completes, the root container still has exactly one child
(the new vertical split) — the collapse law fails on a layout reachable from
startup. -/
theorem C1_counterexample :
    wmNoSingleChild (init_layout_single 1 0) = false ∧
    wmNoSingleChild (applyWMOps (init_layout_single 1 0) [WMOp.split 1 0 false none])
        = false := by decide

/-! Preservation of the collapse law by split and close. -/

mutual

theorem split_in_tree_noSingle (target : Nat) (isH : Bool) (a b : Nat) :
    ∀ t t2 : WTree, noSingleChild t = true →
      split_in_tree target isH (.window a b) t = some t2 → noSingleChild t2 = true
  | .window _ _, _, _, heq => by simp [split_in_tree] at heq
  | .split h cs, t2, hns, heq => by
    have hp : (cs.length != 1) = true ∧ noSingleChildL cs = true := by
      simpa [noSingleChild, Bool.and_eq_true] using hns
    rw [show split_in_tree target isH (.window a b) (.split h cs)
          = (split_in_treeL target isH (.window a b) h cs).map (fun cs2 => .split h cs2)
        from rfl] at heq
    cases hsl : split_in_treeL target isH (.window a b) h cs with
    | none => rw [hsl] at heq; simp at heq
    | some cs2 =>
      rw [hsl] at heq
      obtain rfl : WTree.split h cs2 = t2 := by simpa using heq
      have hlist := split_in_treeL_noSingle target isH a b h cs cs2 hp.2 hsl
      have hcs_ne : cs ≠ [] := by
        intro hnil
        subst hnil
        simp [split_in_treeL] at hsl
      have hlen : cs2.length ≠ 1 := by
        have h1 : cs.length ≠ 1 := by simpa using hp.1
        have h0 : cs.length ≠ 0 := fun hz => hcs_ne (List.length_eq_zero.mp hz)
        rcases hlist.2 with hsame | hplus <;> omega
      simp [noSingleChild, Bool.and_eq_true, hlist.1, hlen]

theorem split_in_treeL_noSingle (target : Nat) (isH : Bool) (a b : Nat) (h : Bool) :
    ∀ cs cs2 : List WTree, noSingleChildL cs = true →
      split_in_treeL target isH (.window a b) h cs = some cs2 →
      noSingleChildL cs2 = true ∧ (cs2.length = cs.length ∨ cs2.length = cs.length + 1)
  | [], _, _, heq => by simp [split_in_treeL] at heq
  | c :: cs, cs2, hns, heq => by
    have hp : noSingleChild c = true ∧ noSingleChildL cs = true := by
      simpa [noSingleChildL, Bool.and_eq_true] using hns
    cases hw : isWindow c target with
    | true =>
      cases ho : (h == isH) with
      | true =>
        simp [split_in_treeL, hw, ho] at heq
        subst heq
        refine ⟨by simp [noSingleChildL, Bool.and_eq_true, hp.1, hp.2, noSingleChild], ?_⟩
        right; simp
      | false =>
        simp [split_in_treeL, hw, ho] at heq
        subst heq
        refine ⟨?_, by left; simp⟩
        simp [noSingleChildL, noSingleChild, Bool.and_eq_true, hp.1, hp.2]
    | false =>
      cases hrec : split_in_tree target isH (.window a b) c with
      | some c2 =>
        simp [split_in_treeL, hw, hrec] at heq
        subst heq
        have hc2 := split_in_tree_noSingle target isH a b c c2 hp.1 hrec
        refine ⟨by simp [noSingleChildL, Bool.and_eq_true, hc2, hp.2], by left; simp⟩
      | none =>
        cases hrecL : split_in_treeL target isH (.window a b) h cs with
        | none => simp [split_in_treeL, hw, hrec, hrecL] at heq
        | some cs2' =>
          simp [split_in_treeL, hw, hrec, hrecL] at heq
          subst heq
          have hres := split_in_treeL_noSingle target isH a b h cs cs2' hp.2 hrecL
          refine ⟨by simp [noSingleChildL, Bool.and_eq_true, hp.1, hres.1], ?_⟩
          rcases hres.2 with hsame | hplus
          · left; simp [hsame]
          · right; simp [hplus]

end

mutual

theorem close_in_tree_noSingle (target : Nat) :
    ∀ t t2 : WTree, noSingleChild t = true →
      close_in_tree target t = some t2 → noSingleChild t2 = true
  | .window _ _, _, _, heq => by simp [close_in_tree] at heq
  | .split h cs, t2, hns, heq => by
    have hp : (cs.length != 1) = true ∧ noSingleChildL cs = true := by
      simpa [noSingleChild, Bool.and_eq_true] using hns
    cases hsl : close_in_treeL target cs with
    | none => simp [close_in_tree, hsl] at heq
    | some p =>
      obtain ⟨flag, cs2⟩ := p
      have hres := close_in_treeL_noSingle target cs (flag, cs2) hp.2 hsl
      cases flag with
      | true =>
        cases cs2 with
        | nil =>
          simp [close_in_tree, hsl] at heq
          subst heq
          simp [noSingleChild, noSingleChildL]
        | cons c rest =>
          cases rest with
          | nil =>
            simp [close_in_tree, hsl] at heq
            subst heq
            simpa [noSingleChildL, Bool.and_eq_true] using hres.1
          | cons d rest2 =>
            simp [close_in_tree, hsl] at heq
            subst heq
            simp [noSingleChild, Bool.and_eq_true, hres.1]
      | false =>
        simp [close_in_tree, hsl] at heq
        subst heq
        have hlen : cs2.length = cs.length := hres.2.2 rfl
        have h1 : cs.length ≠ 1 := by simpa using hp.1
        simp [noSingleChild, Bool.and_eq_true, hres.1, hlen, h1]

theorem close_in_treeL_noSingle (target : Nat) :
    ∀ (cs : List WTree) (p : Bool × List WTree), noSingleChildL cs = true →
      close_in_treeL target cs = some p →
      noSingleChildL p.2 = true ∧ (p.1 = true → p.2.length + 1 = cs.length) ∧
        (p.1 = false → p.2.length = cs.length)
  | [], _, _, heq => by simp [close_in_treeL] at heq
  | c :: cs, p, hns, heq => by
    have hp : noSingleChild c = true ∧ noSingleChildL cs = true := by
      simpa [noSingleChildL, Bool.and_eq_true] using hns
    cases hw : isWindow c target with
    | true =>
      simp [close_in_treeL, hw] at heq
      subst heq
      refine ⟨hp.2, ?_, ?_⟩
      · intro _; simp
      · intro hfalse; simp at hfalse
    | false =>
      cases hrec : close_in_tree target c with
      | some c2 =>
        simp [close_in_treeL, hw, hrec] at heq
        subst heq
        have hc2 := close_in_tree_noSingle target c c2 hp.1 hrec
        refine ⟨?_, ?_, ?_⟩
        · simp [noSingleChildL, Bool.and_eq_true, hc2, hp.2]
        · intro htrue; simp at htrue
        · intro _; simp
      | none =>
        cases hrecL : close_in_treeL target cs with
        | none => simp [close_in_treeL, hw, hrec, hrecL] at heq
        | some q =>
          simp [close_in_treeL, hw, hrec, hrecL] at heq
          subst heq
          have hres := close_in_treeL_noSingle target cs q hp.2 hrecL
          refine ⟨by simp [noSingleChildL, Bool.and_eq_true, hp.1, hres.1], ?_, ?_⟩
          · intro htrue
            have := hres.2.1 htrue
            simp at this ⊢
            omega
          · intro hfalse
            have := hres.2.2 hfalse
            simp at this ⊢
            omega

end

theorem WindowManager_split_noSingle (wm : WindowManager) (target tb : Nat) (isH : Bool)
    (nb : Option Nat) (h : wmNoSingleChild wm = true) :
    wmNoSingleChild (wm.split target tb isH nb) = true := by
  cases hroot : wm.root with
  | none =>
    simp [WindowManager.split, wmNoSingleChild, hroot, noSingleChild, noSingleChildL]
  | some r =>
    have hr : noSingleChild r = true := by simpa [wmNoSingleChild, hroot] using h
    cases hsp : split_in_tree target isH (.window wm.next_wid (nb.getD tb)) r with
    | none =>
      simp [WindowManager.split, wmNoSingleChild, hroot, hsp, noSingleChild, noSingleChildL, hr]
    | some r2 =>
      have := split_in_tree_noSingle target isH wm.next_wid (nb.getD tb) r r2 hr hsp
      simp [WindowManager.split, wmNoSingleChild, hroot, hsp, this]

theorem WindowManager_close_noSingle (wm : WindowManager) (target : Nat)
    (h : wmNoSingleChild wm = true) :
    wmNoSingleChild (wm.close_window target) = true := by
  cases hroot : wm.root with
  | none => simp [WindowManager.close_window, wmNoSingleChild, hroot]
  | some r =>
    have hr : noSingleChild r = true := by simpa [wmNoSingleChild, hroot] using h
    cases hw : isWindow r target with
    | true => simp [WindowManager.close_window, wmNoSingleChild, hroot, hw]
    | false =>
      cases hcl : close_in_tree target r with
      | none => simp [WindowManager.close_window, wmNoSingleChild, hroot, hw, hcl, hr]
      | some r2 =>
        have := close_in_tree_noSingle target r r2 hr hcl
        simp [WindowManager.close_window, wmNoSingleChild, hroot, hw, hcl, this]

/-- C1 (amended): for every sequence of split/close_window operations applied
to a layout in which no SplitContainer has exactly one child, the collapse law
holds after each operation: no SplitContainer ever has exactly one child.  The
precondition is necessary — the editor's single-file startup layout has a
one-child root container, and a differing-orientation split preserves that
degenerate root (see the counterexample). -/
theorem C1_collapse_law_amended (wm : WindowManager) (ops : List WMOp)
    (h : wmNoSingleChild wm = true) :
    wmNoSingleChild (applyWMOps wm ops) = true := by
  induction ops generalizing wm with
  | nil => simpa [applyWMOps] using h
  | cons op ops ih =>
    have hstep : wmNoSingleChild (applyWMOp wm op) = true := by
      cases op with
      | split t tb hh nb => exact WindowManager_split_noSingle wm t tb hh nb h
      | close t => exact WindowManager_close_noSingle wm t h
    exact ih (applyWMOp wm op) hstep

theorem C1_collapse_law_amended_witness :
    wmNoSingleChild ⟨some (.split true [.window 1 0, .window 2 0]), some 2, 3⟩ = true ∧
    wmNoSingleChild (applyWMOps ⟨some (.split true [.window 1 0, .window 2 0]), some 2, 3⟩
        [WMOp.close 2, WMOp.split 1 0 false none]) = true :=
  ⟨by decide,
   C1_collapse_law_amended ⟨some (.split true [.window 1 0, .window 2 0]), some 2, 3⟩
     [WMOp.close 2, WMOp.split 1 0 false none] (by decide)⟩

/-! The insertion rules of split. -/

theorem isWindow_eq_false_of_winIn (target : Nat) (c : WTree) (h : winIn target c = false) :
    isWindow c target = false := by
  cases c with
  | window wid bb => simpa [winIn, isWindow] using h
  | split hh cs => rfl

mutual

theorem split_in_tree_none_of_not_winIn (target : Nat) (isH : Bool) (nw : WTree) :
    ∀ t : WTree, winIn target t = false → split_in_tree target isH nw t = none
  | .window _ _, _ => rfl
  | .split h cs, hw => by
    have hcs : winInL target cs = false := by simpa [winIn] using hw
    simp [split_in_tree, split_in_treeL_none_of_not_winIn target isH nw h cs hcs]

theorem split_in_treeL_none_of_not_winIn (target : Nat) (isH : Bool) (nw : WTree) (h : Bool) :
    ∀ cs : List WTree, winInL target cs = false → split_in_treeL target isH nw h cs = none
  | [], _ => rfl
  | c :: cs, hw => by
    have hc : winIn target c = false ∧ winInL target cs = false := by
      simpa [winInL, Bool.or_eq_false_iff] using hw
    simp [split_in_treeL, isWindow_eq_false_of_winIn target c hc.1,
      split_in_tree_none_of_not_winIn target isH nw c hc.1,
      split_in_treeL_none_of_not_winIn target isH nw h cs hc.2]

end

theorem split_in_treeL_same_orientation (target tb : Nat) (isH : Bool) (nw : WTree) :
    ∀ cs1 : List WTree, (∀ c ∈ cs1, winIn target c = false) → ∀ cs2 : List WTree,
      split_in_treeL target isH nw isH (cs1 ++ .window target tb :: cs2)
        = some (cs1 ++ .window target tb :: nw :: cs2)
  | [], _, cs2 => by
    simp [split_in_treeL, isWindow]
  | c :: cs1, hc, cs2 => by
    have hcw : winIn target c = false := hc c (List.mem_cons_self c cs1)
    have hrest := split_in_treeL_same_orientation target tb isH nw cs1
      (fun x hx => hc x (List.mem_cons_of_mem c hx)) cs2
    simp [split_in_treeL, isWindow_eq_false_of_winIn target c hcw,
      split_in_tree_none_of_not_winIn target isH nw c hcw, hrest]

theorem split_in_treeL_diff_orientation (target tb : Nat) (isH : Bool) (nw : WTree) :
    ∀ cs1 : List WTree, (∀ c ∈ cs1, winIn target c = false) → ∀ cs2 : List WTree,
      split_in_treeL target isH nw (!isH) (cs1 ++ .window target tb :: cs2)
        = some (cs1 ++ .split isH [.window target tb, nw] :: cs2)
  | [], _, cs2 => by
    cases isH <;> simp [split_in_treeL, isWindow]
  | c :: cs1, hc, cs2 => by
    have hcw : winIn target c = false := hc c (List.mem_cons_self c cs1)
    have hrest := split_in_treeL_diff_orientation target tb isH nw cs1
      (fun x hx => hc x (List.mem_cons_of_mem c hx)) cs2
    simp [split_in_treeL, isWindow_eq_false_of_winIn target c hcw,
      split_in_tree_none_of_not_winIn target isH nw c hcw, hrest]

theorem active_buf_ofL_row (w b : Nat) :
    ∀ ids : List Nat, w ∈ ids → active_buf_ofL w (windowsRow ids b) = some b
  | [], hmem => absurd hmem (List.not_mem_nil w)
  | i :: ids, hmem => by
    by_cases hi : i = w
    · subst hi
      simp [windowsRow, active_buf_ofL, active_buf_of]
    · have hw : w ∈ ids := by
        cases List.mem_cons.mp hmem with
        | inl h' => exact absurd h'.symm hi
        | inr h' => exact h'
      have hrec := active_buf_ofL_row w b ids hw
      simpa [windowsRow, active_buf_ofL, active_buf_of, hi] using hrec

theorem get_all_windowsL_row (b : Nat) :
    ∀ ids : List Nat, get_all_windowsL (windowsRow ids b) = ids
  | [] => rfl
  | i :: ids => by
    simp [windowsRow, get_all_windowsL, get_all_windows]
    simpa [windowsRow] using get_all_windowsL_row b ids

theorem splitActive_eq (wm : WindowManager) (w : Nat) (hact : wm.active_window = some w) :
    wm.splitActive true = wm.split w (((wm.root.map (active_buf_of w)).getD none).getD 0)
      true none := by
  simp [WindowManager.splitActive, hact]

theorem split_flat_root (wm : WindowManager) (target tb : Nat) (pre : List WTree)
    (hroot : wm.root = some (.split true (pre ++ [WTree.window target tb])))
    (hpre : ∀ c ∈ pre, winIn target c = false) :
    wm.split target tb true none
      = { root := some (.split true (pre ++ [WTree.window target tb, .window wm.next_wid tb]))
          active_window := some wm.next_wid
          next_wid := wm.next_wid + 1 } := by
  have hins := split_in_treeL_same_orientation target tb true (WTree.window wm.next_wid tb)
    pre hpre []
  simp [WindowManager.split, hroot, split_in_tree, hins]

theorem repeatSplitActive_flat (b : Nat) :
    ∀ n : Nat, repeatSplitActive (init_layout_single 1 b) true n
      = { root := some (.split true (windowsRow ((List.range (n+1)).map (· + 1)) b))
          active_window := some (n+1)
          next_wid := n+2 }
  | 0 => by
    simp [repeatSplitActive, init_layout_single, windowsRow, List.range_succ]
  | n + 1 => by
    rw [show repeatSplitActive (init_layout_single 1 b) true (n+1)
          = (repeatSplitActive (init_layout_single 1 b) true n).splitActive true from rfl,
      repeatSplitActive_flat b n]
    have hmem : (n+1) ∈ (List.range (n+1)).map (· + 1) :=
      List.mem_map.mpr ⟨n, List.mem_range.mpr (Nat.lt_succ_self n), rfl⟩
    have hbuf : active_buf_ofL (n+1) (windowsRow ((List.range (n+1)).map (· + 1)) b)
        = some b := active_buf_ofL_row (n+1) b _ hmem
    rw [splitActive_eq _ (n+1) rfl]
    have hbuf2 :
        (((Option.map (active_buf_of (n+1))
            (some (WTree.split true (windowsRow ((List.range (n+1)).map (· + 1)) b)))).getD
          none).getD 0) = b := by
      simp [active_buf_of, hbuf]
    rw [show (WindowManager.mk
          (some (WTree.split true (windowsRow ((List.range (n+1)).map (· + 1)) b)))
          (some (n+1)) (n+2)).root
        = some (WTree.split true (windowsRow ((List.range (n+1)).map (· + 1)) b)) from rfl,
      hbuf2]
    have hrow : windowsRow ((List.range (n+1)).map (· + 1)) b
        = windowsRow ((List.range n).map (· + 1)) b ++ [WTree.window (n+1) b] := by
      rw [List.range_succ]
      simp [windowsRow]
    have hpre : ∀ c ∈ windowsRow ((List.range n).map (· + 1)) b, winIn (n+1) c = false := by
      intro c hcmem
      simp only [windowsRow, List.mem_map] at hcmem
      obtain ⟨i, hi, rfl⟩ := hcmem
      obtain ⟨j, hj, rfl⟩ := hi
      have hjn : j < n := List.mem_range.mp hj
      have : j + 1 ≠ n + 1 := by omega
      simpa [winIn] using this
    have hsplit := split_flat_root
      (WindowManager.mk
        (some (WTree.split true (windowsRow ((List.range (n+1)).map (· + 1)) b)))
        (some (n+1)) (n+2))
      (n+1) b (windowsRow ((List.range n).map (· + 1)) b) (by simpa using hrow) hpre
    rw [hsplit]
    have hids2 : (List.range (n+2)).map (· + 1)
        = ((List.range n).map (· + 1)) ++ [n+1, n+2] := by
      rw [List.range_succ, List.range_succ]
      simp
    rw [show windowsRow ((List.range (n+1+1)).map (· + 1)) b
          = windowsRow (((List.range n).map (· + 1)) ++ [n+1, n+2]) b from by rw [hids2]]
    simp [windowsRow]

/-- C2: the insertion rules of WindowManager.split.  (1) On an empty tree the
new root is the 2-child split of target and new window.  (2) When the target
is the root leaf, the whole tree is wrapped in a 2-child split of old root and
new window.  (3) When the target's parent has the requested orientation, the
new window is inserted immediately after the target among the parent's
children.  (4) When the parent's orientation differs, the target is replaced
in the parent's children by a 2-child split of the requested orientation.
(5) The new window always becomes the active window.  (6, 7) Repeated
same-orientation splits of the active window starting from the single-window
startup layout keep the tree a single flat row of sibling windows whose
pre-order traversal lists them in insertion order 1, 2, …, n+1 — never nested
pairs. -/
theorem C2_split_rules :
    (∀ (wm : WindowManager) (target tb : Nat) (isH : Bool) (nb : Option Nat),
      wm.root = none →
      (wm.split target tb isH nb).root
        = some (.split isH [.window target tb, .window wm.next_wid (nb.getD tb)])) ∧
    (∀ (wm : WindowManager) (target tb : Nat) (isH : Bool) (nb : Option Nat),
      wm.root = some (.window target tb) →
      (wm.split target tb isH nb).root
        = some (.split isH [.window target tb, .window wm.next_wid (nb.getD tb)])) ∧
    (∀ (target tb : Nat) (isH : Bool) (nw : WTree) (cs1 cs2 : List WTree),
      (∀ c ∈ cs1, winIn target c = false) →
      split_in_treeL target isH nw isH (cs1 ++ .window target tb :: cs2)
        = some (cs1 ++ .window target tb :: nw :: cs2)) ∧
    (∀ (target tb : Nat) (isH : Bool) (nw : WTree) (cs1 cs2 : List WTree),
      (∀ c ∈ cs1, winIn target c = false) →
      split_in_treeL target isH nw (!isH) (cs1 ++ .window target tb :: cs2)
        = some (cs1 ++ .split isH [.window target tb, nw] :: cs2)) ∧
    (∀ (wm : WindowManager) (target tb : Nat) (isH : Bool) (nb : Option Nat),
      (wm.split target tb isH nb).active_window = some wm.next_wid) ∧
    (∀ (b n : Nat),
      repeatSplitActive (init_layout_single 1 b) true n
        = { root := some (.split true (windowsRow ((List.range (n+1)).map (· + 1)) b))
            active_window := some (n+1)
            next_wid := n+2 }) ∧
    (∀ (b n : Nat),
      wmWindows (repeatSplitActive (init_layout_single 1 b) true n)
        = (List.range (n+1)).map (· + 1)) := by
  refine ⟨?_, ?_, ?_, ?_, ?_, ?_, ?_⟩
  · intro wm target tb isH nb hroot
    simp [WindowManager.split, hroot]
  · intro wm target tb isH nb hroot
    simp [WindowManager.split, hroot, split_in_tree]
  · intro target tb isH nw cs1 cs2 hpre
    exact split_in_treeL_same_orientation target tb isH nw cs1 hpre cs2
  · intro target tb isH nw cs1 cs2 hpre
    exact split_in_treeL_diff_orientation target tb isH nw cs1 hpre cs2
  · intro wm target tb isH nb
    rfl
  · intro b n
    exact repeatSplitActive_flat b n
  · intro b n
    rw [repeatSplitActive_flat b n]
    simp [wmWindows, get_all_windows]
    simpa using get_all_windowsL_row b ((List.range (n+1)).map (· + 1))

theorem C2_split_rules_witness :
    ((WindowManager.mk none none 5).split 1 0 true none).root
        = some (.split true [.window 1 0, .window 5 0]) ∧
    ((WindowManager.mk (some (.window 1 0)) (some 1) 2).split 1 0 false none).root
        = some (.split false [.window 1 0, .window 2 0]) ∧
    split_in_treeL 1 true (WTree.window 9 0) true [WTree.window 1 0, WTree.window 2 0]
        = some [WTree.window 1 0, WTree.window 9 0, WTree.window 2 0] ∧
    split_in_treeL 1 false (WTree.window 9 0) (!false) [WTree.window 1 0, WTree.window 2 0]
        = some [WTree.split false [WTree.window 1 0, WTree.window 9 0], WTree.window 2 0] ∧
    ((WindowManager.mk none none 5).split 1 0 true none).active_window = some 5 ∧
    repeatSplitActive (init_layout_single 1 0) true 2
        = { root := some (.split true (windowsRow ((List.range 3).map (· + 1)) 0))
            active_window := some 3
            next_wid := 4 } ∧
    wmWindows (repeatSplitActive (init_layout_single 1 0) true 2)
        = (List.range 3).map (· + 1) :=
  ⟨C2_split_rules.1 (WindowManager.mk none none 5) 1 0 true none rfl,
   C2_split_rules.2.1 (WindowManager.mk (some (.window 1 0)) (some 1) 2) 1 0 false none rfl,
   by
     have h := C2_split_rules.2.2.1 1 0 true (WTree.window 9 0) [] [WTree.window 2 0]
       (by intro c hc; simp at hc)
     simpa using h,
   by
     have h := C2_split_rules.2.2.2.1 1 0 false (WTree.window 9 0) [] [WTree.window 2 0]
       (by intro c hc; simp at hc)
     simpa using h,
   C2_split_rules.2.2.2.2.1 (WindowManager.mk none none 5) 1 0 true none,
   C2_split_rules.2.2.2.2.2.1 0 2,
   C2_split_rules.2.2.2.2.2.2 0 2⟩

end SnoPy
